import Mathlib

/-!
# dotori: the download handler and the timestamp pattern

A shallow embedding of `handleDownloadItem` (http_download.go), of the item store functions it
uses (dbapi_v2.go), of the data model (struct.go) and of `regexRFC3339Time` (check.go).

The handler is a function from a `World`, which gives the result of every call the handler
makes outside itself, and a `Request` to the final state `St` of the run: the trace of calls in
order, deferred calls included, the response, the store and the paths left on disk.
-/

namespace Dotori

/-! ## Definitions -/

/-- Storage of struct.go: the physical path of a storage on each platform. -/
structure Storage where
  ID : String
  Windows : String
  Linux : String
  MacOS : String
deriving DecidableEq, Repr

/-- Attribute of struct.go. -/
structure Attribute where
  Key : String
  Value : String
deriving DecidableEq, Repr

/-- Item of struct.go. `UsingRate` is the `int64` usage counter, an integer that arithmetic
wraps into the 64-bit range (see `wrapInt64`); the embedded `Storage` is a field of its own,
since `Item` and `Storage` both declare an `ID`; the field `Type` is written `ItemType`, the
name under which dbapi_v2.go reads it. -/
structure Item where
  ID : String
  Author : String
  Tags : List String
  Description : String
  Thumbimg : String
  Thumbmov : String
  Inputpath : String
  Outputpath : String
  ItemType : String
  Status : String
  Log : String
  CreateTime : String
  Updatetime : String
  UsingRate : Int
  Storage : Storage
  Attributes : List Attribute
deriving DecidableEq, Repr

/-- Modelled from the spec: the handler reads `item.OutputDataPath`, a field the `Item` of
struct.go does not declare; the spec names it `outputPath`, "the root the Archive Builder
reads from", which struct.go stores as `Outputpath`. -/
def Item.OutputDataPath (i : Item) : String := i.Outputpath

/-- The range of `int64`. -/
def IsInt64 (x : Int) : Prop := -(2 ^ 63) ≤ x ∧ x < 2 ^ 63

/-- Two's-complement wrap of an integer into the range of `int64`, as Go arithmetic does. -/
def wrapInt64 (x : Int) : Int := (x + 2 ^ 63) % 2 ^ 64 - 2 ^ 63

/-- A document of the database: the collection it is in, its key `_id` (an ObjectID, kept in
canonical lower-case hexadecimal text) and the Item it decodes to. The key is not a field of
the Item. -/
structure Document where
  collection : String
  oid : String
  item : Item
deriving DecidableEq, Repr

/-- The documents of the database. -/
abbrev Store := List Document

/-- The driver call `FindOne` with the filter `_id = objID` on one collection. -/
def Store.findOne (db : Store) (collection objID : String) : Option Item :=
  match db with
  | [] => none
  | d :: rest =>
    if d.collection = collection ∧ d.oid = objID then some d.item
    else Store.findOne rest collection objID

/-- Modelled from the spec: the write of the usage tracker, whose body is not among the
sources. Spec 4.4 has the tracker write the Item it read "back through the Item Store": the
first document of the collection with the key `_id = objID` gets the new Item, and the other
documents are left as they are. -/
def Store.writeBack (db : Store) (collection objID : String) (doc : Item) : Store :=
  match db with
  | [] => []
  | d :: rest =>
    if d.collection = collection ∧ d.oid = objID then { d with item := doc } :: rest
    else d :: Store.writeBack rest collection objID doc

/-- Hexadecimal digits, as accepted by `encoding/hex`. -/
def isHex (c : Char) : Bool :=
  (48 ≤ c.toNat && c.toNat ≤ 57) || (97 ≤ c.toNat && c.toNat ≤ 102) ||
    (65 ≤ c.toNat && c.toNat ≤ 70)

/-- Lower-case form of a hexadecimal digit. -/
def lowerHex (c : Char) : Char :=
  if 65 ≤ c.toNat ∧ c.toNat ≤ 70 then Char.ofNat (c.toNat + 32) else c

/-- The driver function `primitive.ObjectIDFromHex`: 24 hexadecimal digits, or an error. The
identifier is kept in its canonical lower-case text. -/
def ObjectIDFromHex (s : String) : Except String String :=
  if s.utf8ByteSize ≠ 24 then .error "the provided hex string is not a valid ObjectID"
  else if s.data.all isHex then .ok (String.mk (s.data.map lowerHex))
  else .error "encoding/hex: invalid byte"

/-- GetItem of dbapi_v2.go. `fault` is the failure, if any, of the driver call (deadline,
connection, decoding). -/
def GetItem (fault : Option String) (db : Store) (itemType id : String) : Except String Item :=
  match ObjectIDFromHex id with
  | .error e => .error e
  | .ok objID =>
    match fault with
    | some e => .error e
    | none =>
      match db.findOne itemType objID with
      | none => .error "mongo: no documents in result"
      | some result => .ok result

/-- Modelled from the spec: `UpdateUsingRate` is called by the handler and its body is not
among the sources. Spec 4.4: "Reads the current Item, increments `usingRate` by exactly one,
and writes it back through the Item Store", with contract
`increment(itemType, id) -> newCount | error`. The read is `GetItem`; the increment is the
addition of the `int64` field, which wraps; the write is `Store.writeBack` on the document that
was read, and `writeFault` is its failure, if any. -/
def UpdateUsingRate (readFault writeFault : Option String) (db : Store) (itemType id : String) :
    Except String (Int × Store) :=
  match ObjectIDFromHex id with
  | .error e => .error e
  | .ok objID =>
    match GetItem readFault db itemType id with
    | .error e => .error e
    | .ok item =>
      match writeFault with
      | some e => .error e
      | none =>
        .ok (wrapInt64 (item.UsingRate + 1),
          db.writeBack itemType objID { item with UsingRate := wrapInt64 (item.UsingRate + 1) })

/-- The part of an HTTP request the handler reads. `Query` is `r.URL.Query()`. -/
structure Request where
  Header : List (String × String)
  Query : List (String × String)

/-- The method `Get` of `url.Values`: the first value of the key, or the empty string. -/
def Get (q : List (String × String)) (key : String) : String :=
  match q with
  | [] => ""
  | p :: rest => if p.1 = key then p.2 else Get rest key

/-- An entry of a directory listing. -/
structure FileInfo where
  Name : String
  IsDir : Bool
deriving DecidableEq, Repr

/-- An opened source file: its base name and its bytes. -/
structure File where
  Name : String
  Content : List Nat
deriving DecidableEq, Repr

/-- Everything outside the handler: the identity service, the database, the filesystem and
the archive library, each as the result it gives when called. -/
structure World where
  GetTokenFromHeader : Request → Except String String
  newClientErr : Option String
  connectErr : Option String
  pingErr : Option String
  getItemFault : Option String
  store : Store
  TempDir : Except String String
  createErr : String → Option String
  ReadDir : String → Except String (List FileInfo)
  Open : String → Except String File
  statErr : String → Option String
  fileInfoHeaderErr : String → Option String
  createHeaderErr : String → Option String
  copyErr : String → Option String
  trackerReadFault : Option String
  trackerWriteFault : Option String
  serveStatus : Nat

/-- The calls the handler makes, in the vocabulary of the source. -/
inductive Call where
  | GetTokenFromHeader
  | Redirect (url : String) (code : Nat)
  | Error (msg : String) (code : Nat)
  | NewClient
  | Connect
  | Ping
  | Disconnect
  | cancel
  | GetItem (itemType id : String)
  | TempDir
  | RemoveAll (path : String)
  | Create (path : String)
  | zipFileClose (path : String)
  | zipWriterClose
  | ReadDir (path : String)
  | Open (path : String)
  | fileClose (path : String)
  | Stat (path : String)
  | FileInfoHeader (name : String)
  | CreateHeader (name : String)
  | Copy (name : String)
  | UpdateUsingRate (itemType id : String)
  | HeaderAdd (key value : String)
  | ServeFile (path : String)
deriving DecidableEq, Repr

/-- A call with the error it returned, if any. -/
structure Event where
  call : Call
  err : Option String
deriving DecidableEq, Repr

/-- The archive file as the zip writer has produced it so far: the entries handed to the
writer, and whether `Close` has written the central directory and flushed. -/
structure ZipFile where
  entries : List (String × List Nat)
  finalised : Bool
deriving DecidableEq, Repr

/-- What the requester receives. -/
inductive Response where
  | none
  | redirect (url : String) (code : Nat)
  | error (msg : String) (code : Nat)
  | file (code : Nat) (headers : List (String × String)) (path : String) (archive : ZipFile)
deriving DecidableEq, Repr

/-- The status code of a response. -/
def Response.status : Response → Nat
  | .none => 0
  | .redirect _ code => code
  | .error _ code => code
  | .file code _ _ _ => code

/-- State of one run of the handler. -/
structure St where
  trace : List Event
  defers : List Call
  store : Store
  disk : List String
  zip : ZipFile
  headers : List (String × String)
  resp : Response

/-- Record a call and its outcome. -/
def St.log (s : St) (c : Call) (e : Option String) : St :=
  { s with trace := s.trace ++ [⟨c, e⟩] }

/-- The statement `defer c`. -/
def St.defer (s : St) (c : Call) : St :=
  { s with defers := c :: s.defers }

/-- The library call `http.Error`. -/
def St.httpError (s : St) (msg : String) (code : Nat) : St :=
  { s with trace := s.trace ++ [⟨.Error msg code, none⟩], resp := .error msg code }

/-- The library call `http.Redirect`. -/
def St.httpRedirect (s : St) (url : String) (code : Nat) : St :=
  { s with trace := s.trace ++ [⟨.Redirect url code, none⟩], resp := .redirect url code }

/-- The store after a write of the usage tracker. -/
def St.withStore (s : St) (db : Store) : St :=
  { s with store := db }

/-- The filesystem gets a new path in the temporary workspace. -/
def St.created (s : St) (path : String) : St :=
  { s with disk := path :: s.disk }

/-- The call `CreateHeader` of the zip writer: the archive gets a new, still empty entry. -/
def St.addEntry (s : St) (name : String) : St :=
  { s with zip := { s.zip with entries := s.zip.entries ++ [(name, [])] } }

/-- The call `io.Copy` into the entry opened last: the writer is handed the bytes of the file
for that entry. The zip writer buffers, so before its `Close` the file on disk may hold less
than what the writer was handed. -/
def St.fillEntry (s : St) (name : String) (content : List Nat) : St :=
  { s with zip := { s.zip with entries := s.zip.entries.dropLast ++ [(name, content)] } }

/-- The call `w.Header().Add`. -/
def St.headerAdd (s : St) (key value : String) : St :=
  { s with trace := s.trace ++ [⟨.HeaderAdd key value, none⟩],
           headers := s.headers ++ [(key, value)] }

/-- The library call `http.ServeFile`: the archive file is read as it is on disk now. The
response records the state of the writer at this moment; while `finalised` is false the bytes
on disk are an unfinished archive, without central directory and possibly truncated. -/
def St.serveFile (s : St) (code : Nat) (path : String) : St :=
  { s with trace := s.trace ++ [⟨.ServeFile path, none⟩],
           resp := .file code s.headers path s.zip }

/-- Is `p` the directory `d` or a path below it? -/
def inside (d p : String) : Bool :=
  decide (p = d) || (d.data ++ ['/']).isPrefixOf p.data

/-- One deferred call running at function exit. -/
def St.runDeferred (s : St) (c : Call) : St :=
  match c with
  | .zipWriterClose =>
    { s with trace := s.trace ++ [⟨c, none⟩], zip := { s.zip with finalised := true } }
  | .RemoveAll d =>
    { s with trace := s.trace ++ [⟨c, none⟩], disk := s.disk.filter (fun p => !inside d p) }
  | _ => { s with trace := s.trace ++ [⟨c, none⟩] }

/-- The statement `return`: the deferred calls run, the last deferred first. -/
def St.ret (s : St) : St :=
  s.defers.foldl St.runDeferred { s with defers := [] }

/-- The loop over the listing, lines 87 to 118. The result is the state at the end of the
loop, or the state and the error of the step that failed. -/
def addFiles (w : World) (dataPath : String) : List FileInfo → St → Except (St × String) St
  | [], s => .ok s
  | f :: rest, s =>
    let path := dataPath ++ f.Name
    match w.Open path with
    | .error e => .error (s.log (.Open path) (some e), e)
    | .ok fileName =>
    let s := (s.log (.Open path) none).defer (.fileClose path)
    match w.statErr path with
    | some e => .error (s.log (.Stat path) (some e), e)
    | none =>
    let s := s.log (.Stat path) none
    match w.fileInfoHeaderErr fileName.Name with
    | some e => .error (s.log (.FileInfoHeader fileName.Name) (some e), e)
    | none =>
    let s := s.log (.FileInfoHeader fileName.Name) none
    match w.createHeaderErr fileName.Name with
    | some e => .error (s.log (.CreateHeader fileName.Name) (some e), e)
    | none =>
    let s := (s.log (.CreateHeader fileName.Name) none).addEntry fileName.Name
    match w.copyErr fileName.Name with
    | some e => .error (s.log (.Copy fileName.Name) (some e), e)
    | none =>
    let s := (s.log (.Copy fileName.Name) none).fillEntry fileName.Name fileName.Content
    addFiles w dataPath rest s

/-- The handler handleDownloadItem of http_download.go. -/
def handleDownloadItem (w : World) (r : Request) : St :=
  let s : St := ⟨[], [], w.store, [], ⟨[], false⟩, [], .none⟩
  match w.GetTokenFromHeader r with
  | .error e => ((s.log .GetTokenFromHeader (some e)).httpRedirect "/signin" 303).ret
  | .ok _ =>
  let s := s.log .GetTokenFromHeader none
  let itemtype := Get r.Query "itemtype"
  let id := Get r.Query "id"
  if itemtype = "" then (s.httpError "URL에 itemtype을 입력해주세요" 400).ret else
  if id = "" then (s.httpError "URL에 id를 입력해주세요" 400).ret else
  match w.newClientErr with
  | some e => ((s.log .NewClient (some e)).httpError e 500).ret
  | none =>
  let s := ((s.log .NewClient none).defer .cancel).defer .Disconnect
  match w.connectErr with
  | some e => ((s.log .Connect (some e)).httpError e 500).ret
  | none =>
  let s := s.log .Connect none
  match w.pingErr with
  | some e => ((s.log .Ping (some e)).httpError e 500).ret
  | none =>
  let s := s.log .Ping none
  match GetItem w.getItemFault s.store itemtype id with
  | .error e => ((s.log (.GetItem itemtype id) (some e)).httpError e 500).ret
  | .ok item =>
  let s := s.log (.GetItem itemtype id) none
  match w.TempDir with
  | .error e => ((s.log .TempDir (some e)).httpError e 500).ret
  | .ok tempDir =>
  let s := ((s.log .TempDir none).created tempDir).defer (.RemoveAll tempDir)
  let zipFileDir := tempDir ++ "/" ++ id ++ ".zip"
  match w.createErr zipFileDir with
  | some e => ((s.log (.Create zipFileDir) (some e)).httpError e 500).ret
  | none =>
  let s := (((s.log (.Create zipFileDir) none).created zipFileDir).defer
    (.zipFileClose zipFileDir)).defer .zipWriterClose
  let dataPath := item.OutputDataPath
  match w.ReadDir dataPath with
  | .error e => ((s.log (.ReadDir dataPath) (some e)).httpError e 500).ret
  | .ok files =>
  let s := s.log (.ReadDir dataPath) none
  match addFiles w dataPath files s with
  | .error (s, e) => (s.httpError e 500).ret
  | .ok s =>
  match UpdateUsingRate w.trackerReadFault w.trackerWriteFault s.store itemtype id with
  | .error e => ((s.log (.UpdateUsingRate itemtype id) (some e)).httpError e 500).ret
  | .ok (_, db) =>
  let s := (s.log (.UpdateUsingRate itemtype id) none).withStore db
  let s := s.headerAdd "Content-Type" "application/zip"
  let s := s.headerAdd "Content-Disposition" ("Attachment; filename=" ++ id ++ ".zip")
  (s.serveFile w.serveStatus zipFileDir).ret

/-- A directory and the regular files directly in it; `path` has no trailing separator. -/
structure Dir where
  path : String
  files : List File

/-- Listing a directory, named with or without a trailing separator. -/
def osReadDir (fs : List Dir) (p : String) : Except String (List FileInfo) :=
  match fs with
  | [] => .error ("open " ++ p ++ ": no such file or directory")
  | d :: rest =>
    if d.path = p ∨ d.path ++ "/" = p then .ok (d.files.map (fun f => ⟨f.Name, false⟩))
    else osReadDir rest p

/-- Looking a file path up in one directory. -/
def Dir.lookup (d : Dir) (p : String) : Option File :=
  d.files.find? (fun f => decide (d.path ++ "/" ++ f.Name = p))

/-- Opening a regular file by its path. -/
def osOpen (fs : List Dir) (p : String) : Except String File :=
  match fs with
  | [] => .error ("open " ++ p ++ ": no such file or directory")
  | d :: rest =>
    match d.lookup p with
    | some f => .ok f
    | none => osOpen rest p

/-- A world in which every call succeeds, over a given store and filesystem. -/
def World.healthy (db : Store) (fs : List Dir) : World where
  GetTokenFromHeader := fun _ => .ok "token"
  newClientErr := none
  connectErr := none
  pingErr := none
  getItemFault := none
  store := db
  TempDir := .ok "/tmp/zip123456"
  createErr := fun _ => none
  ReadDir := osReadDir fs
  Open := osOpen fs
  statErr := fun _ => none
  fileInfoHeaderErr := fun _ => none
  createHeaderErr := fun _ => none
  copyErr := fun _ => none
  trackerReadFault := none
  trackerWriteFault := none
  serveStatus := 200

/-- The Item of the example of the specification, under a well-formed identifier. -/
def exItem (outputPath : String) : Item where
  ID := "5f0c1a2b3c4d5e6f70818283"
  Author := "author"
  Tags := []
  Description := ""
  Thumbimg := ""
  Thumbmov := ""
  Inputpath := ""
  Outputpath := outputPath
  ItemType := "maya"
  Status := "done"
  Log := ""
  CreateTime := "2019-09-09T02:46:52+09:00"
  Updatetime := "2019-09-09T02:46:52+09:00"
  UsingRate := 5
  Storage := ⟨"", "", "", ""⟩
  Attributes := []

/-- The files of the example: `a.ma` and `b.png` in `/data/abc123`. -/
def exFS : List Dir := [⟨"/data/abc123", [⟨"a.ma", [1, 2, 3]⟩, ⟨"b.png", [4, 5]⟩]⟩]

/-- The download request for the example Item. -/
def exRequest : Request where
  Header := []
  Query := [("itemtype", "maya"), ("id", "5f0c1a2b3c4d5e6f70818283")]

/-- Calls on the item store. -/
def Call.isPersistence : Call → Bool
  | .NewClient | .Connect | .Ping | .Disconnect | .cancel | .GetItem _ _ | .UpdateUsingRate _ _ => true
  | _ => false

/-- Calls on the filesystem and the archive. -/
def Call.isFilesystem : Call → Bool
  | .TempDir | .RemoveAll _ | .Create _ | .zipFileClose _ | .zipWriterClose | .ReadDir _
  | .Open _ | .fileClose _ | .Stat _ | .FileInfoHeader _ | .CreateHeader _ | .Copy _
  | .ServeFile _ => true
  | _ => false

/-- The steps of the loop over the listing. -/
def Call.isEntryStep : Call → Bool
  | .Open _ | .Stat _ | .FileInfoHeader _ | .CreateHeader _ | .Copy _ => true
  | _ => false

/-- The deferred closing of a source file. -/
def Call.isFileClose : Call → Bool
  | .fileClose _ => true
  | _ => false

/-- The state in which the loop stops, whether it failed or not. -/
def loopState : Except (St × String) St → St
  | .ok s => s
  | .error (s, _) => s

/-- Did the loop run to its end? -/
def loopOk : Except (St × String) St → Bool
  | .ok _ => true
  | .error _ => false

/-- What the loop may change of a state: events of entry steps are appended, closings of source
files are deferred, the archive grows, and nothing else moves. -/
structure LoopExt (s t : St) (ok : Bool) : Prop where
  trace : ∃ ev, t.trace = s.trace ++ ev ∧ (∀ e ∈ ev, e.call.isEntryStep = true) ∧
    (ok = true → ∀ e ∈ ev, e.err = none) ∧ (ok = false → ∃ e ∈ ev, e.err ≠ none)
  defers : ∃ cl, t.defers = cl ++ s.defers ∧ ∀ c ∈ cl, c.isFileClose = true
  store : t.store = s.store
  disk : t.disk = s.disk
  resp : t.resp = s.resp
  headers : t.headers = s.headers

/-- The steps that build the archive. -/
def Call.isBuildStep : Call → Bool
  | .TempDir | .Create _ | .ReadDir _ | .Open _ | .Stat _ | .FileInfoHeader _
  | .CreateHeader _ | .Copy _ => true
  | _ => false

/-- The call of the usage tracker. -/
def Call.isUpdateUsingRate : Call → Bool
  | .UpdateUsingRate _ _ => true
  | _ => false

/-- Does the deferred call remove the path from the disk? -/
def Call.removes (c : Call) (p : String) : Bool :=
  match c with
  | .RemoveAll d => inside d p
  | _ => false

/-- Calls that use the temporary workspace or the archive file in it. -/
def Call.usesWorkspace : Call → Bool
  | .Create _ | .CreateHeader _ | .Copy _ | .zipWriterClose | .zipFileClose _ | .ServeFile _ => true
  | _ => false

/-- The Item with its Storage record replaced. -/
def Item.withStorage (f : Dotori.Storage → Dotori.Storage) (i : Item) : Item :=
  { i with Storage := f i.Storage }

/-- The store with the Storage record of every Item replaced. -/
def Store.withStorage (f : Storage → Storage) (db : Store) : Store :=
  db.map (fun d => { d with item := d.item.withStorage f })

/-- The world over the store with the Storage records replaced. -/
def World.withStorage (f : Storage → Storage) (w : World) : World :=
  { w with store := w.store.withStorage f }

/-- Abstract syntax of the fragment of Go regular expressions used by check.go. -/
inductive Regex where
  | eps : Regex
  | lit (c : Char) : Regex
  | cls (ranges : List (Char × Char)) : Regex
  | cat (a b : Regex) : Regex
  | alt (a b : Regex) : Regex
  | opt (a : Regex) : Regex

/-- Membership of a character in a bracket class given by inclusive ranges. -/
def inClass (ranges : List (Char × Char)) (c : Char) : Bool :=
  ranges.any (fun r => decide (r.1.toNat ≤ c.toNat) && decide (c.toNat ≤ r.2.toNat))

/-- The counted repetition `r{n}`. -/
def Regex.times (r : Regex) : Nat → Regex
  | 0 => Regex.eps
  | n + 1 => Regex.cat r (Regex.times r n)

/-- Backtracking matcher: `matchK r s k` tries every way of matching `r` on a prefix of `s`
and hands the rest of the input to the continuation `k`. -/
def matchK : Regex → List Char → (List Char → Bool) → Bool
  | .eps, s, k => k s
  | .lit c, s, k =>
    match s with
    | [] => false
    | x :: t => decide (x = c) && k t
  | .cls rs, s, k =>
    match s with
    | [] => false
    | x :: t => inClass rs x && k t
  | .cat a b, s, k => matchK a s (fun t => matchK b t k)
  | .alt a b, s, k => matchK a s k || matchK b s k
  | .opt a, s, k => matchK a s k || k s

/-- A compiled pattern: a body with optional `^` and `$` anchors around it. -/
structure Regexp where
  anchorStart : Bool
  body : Regex
  anchorEnd : Bool

/-- The method `MatchString` of Go regexps: does the text contain a match of the pattern? -/
def Regexp.MatchString (re : Regexp) (s : String) : Bool :=
  let starts := if re.anchorStart then [s.data] else s.data.tails
  starts.any (fun t => matchK re.body t (fun rest => !re.anchorEnd || rest.isEmpty))

/-- The class `\d`, ASCII digits only in Go. -/
def digit : Regex := .cls [('0', '9')]

/-- The pattern of check.go:
`^\d{4}-(0?[1-9]|1[012])-(0?[1-9]|[12][0-9]|3[01])T\d{2}:\d{2}:\d{2}[-+]\d{2}:\d{2}$`. -/
def regexRFC3339Time : Regexp where
  anchorStart := true
  body :=
    .cat (digit.times 4) <| .cat (.lit '-') <|
    .cat (.alt (.cat (.opt (.lit '0')) (.cls [('1', '9')]))
               (.cat (.lit '1') (.cls [('0', '0'), ('1', '1'), ('2', '2')]))) <|
    .cat (.lit '-') <|
    .cat (.alt (.cat (.opt (.lit '0')) (.cls [('1', '9')]))
           (.alt (.cat (.cls [('1', '1'), ('2', '2')]) (.cls [('0', '9')]))
                 (.cat (.lit '3') (.cls [('0', '0'), ('1', '1')])))) <|
    .cat (.lit 'T') <|
    .cat (digit.times 2) <| .cat (.lit ':') <|
    .cat (digit.times 2) <| .cat (.lit ':') <|
    .cat (digit.times 2) <|
    .cat (.cls [('-', '-'), ('+', '+')]) <|
    .cat (digit.times 2) <| .cat (.lit ':') (digit.times 2)
  anchorEnd := true

/-- The language of a regular expression, denotationally. -/
def Regex.Lang : Regex → List Char → Prop
  | .eps, s => s = []
  | .lit c, s => s = [c]
  | .cls rs, s => ∃ x, s = [x] ∧ inClass rs x = true
  | .cat a b, s => ∃ s1 s2, s = s1 ++ s2 ∧ a.Lang s1 ∧ b.Lang s2
  | .alt a b, s => a.Lang s ∨ b.Lang s
  | .opt a, s => s = [] ∨ a.Lang s

/-- An ASCII digit `0`..`9`. -/
def asciiDigit (c : Char) : Prop := 48 ≤ c.toNat ∧ c.toNat ≤ 57

/-- A field of exactly `n` ASCII digits. -/
def Digits (n : Nat) (t : List Char) : Prop := t.length = n ∧ ∀ c ∈ t, asciiDigit c

/-- The decimal value of a digit string. -/
def decVal (t : List Char) : Nat := t.foldl (fun a c => 10 * a + (c.toNat - 48)) 0

/-- A number between `lo` and `hi` written with one or two digits (a leading zero allowed). -/
def Numeral (lo hi : Nat) (t : List Char) : Prop :=
  (t.length = 1 ∨ t.length = 2) ∧ (∀ c ∈ t, asciiDigit c) ∧ lo ≤ decVal t ∧ decVal t ≤ hi

/-- The timestamp format in the words of the specification: year, month, day, `T`, time of
day and a signed numeric offset, with nothing before or after. -/
def StrictTimestamp (s : String) : Prop :=
  ∃ year month day hh mm ss oh om : List Char, ∃ sign : Char,
    s.data = year ++ '-' :: (month ++ '-' :: (day ++ 'T' :: (hh ++ ':' :: (mm ++ ':' ::
      (ss ++ sign :: (oh ++ ':' :: om)))))) ∧
    Digits 4 year ∧ Numeral 1 12 month ∧ Numeral 1 31 day ∧
    Digits 2 hh ∧ Digits 2 mm ∧ Digits 2 ss ∧ (sign = '+' ∨ sign = '-') ∧
    Digits 2 oh ∧ Digits 2 om

/-- A two-digit field with a value between `lo` and `hi`. -/
def TwoDigits (lo hi : Nat) (t : List Char) : Prop :=
  Digits 2 t ∧ lo ≤ decVal t ∧ decVal t ≤ hi

/-- The ranges the claim gives for the fields of an RFC 3339 date-time with a numeric offset:
two-digit month 01..12 and day 01..31, hour 00..23, minute 00..59, second 00..60, offset hour
00..23 and offset minute 00..59. Every valid RFC 3339 date-time has its fields in these ranges,
so a string outside them is not one. The ranges are necessary and not sufficient: the day is
not checked against the month and the year, and a second 60 is not checked to be a leap
second. -/
def RFC3339FieldRanges (s : String) : Prop :=
  ∃ year month day hh mm ss oh om : List Char, ∃ sign : Char,
    s.data = year ++ '-' :: (month ++ '-' :: (day ++ 'T' :: (hh ++ ':' :: (mm ++ ':' ::
      (ss ++ sign :: (oh ++ ':' :: om)))))) ∧
    Digits 4 year ∧ TwoDigits 1 12 month ∧ TwoDigits 1 31 day ∧
    TwoDigits 0 23 hh ∧ TwoDigits 0 59 mm ∧ TwoDigits 0 60 ss ∧ (sign = '+' ∨ sign = '-') ∧
    TwoDigits 0 23 oh ∧ TwoDigits 0 59 om

/-- What the pattern guarantees of a string it accepts: the layout of the format, a month
1..12 and a day 1..31 of one or two digits, and time and offset fields of two digits each,
which is a value 00..99 and nothing more. -/
def CheckedShape (s : String) : Prop :=
  ∃ year month day hh mm ss oh om : List Char, ∃ sign : Char,
    s.data = year ++ '-' :: (month ++ '-' :: (day ++ 'T' :: (hh ++ ':' :: (mm ++ ':' ::
      (ss ++ sign :: (oh ++ ':' :: om)))))) ∧
    Digits 4 year ∧ Numeral 1 12 month ∧ Numeral 1 31 day ∧
    TwoDigits 0 99 hh ∧ TwoDigits 0 99 mm ∧ TwoDigits 0 99 ss ∧ (sign = '+' ∨ sign = '-') ∧
    TwoDigits 0 99 oh ∧ TwoDigits 0 99 om

/-- The text `2019-02-31Thh:mm:ss+oh:om`, on the 31st of February, for given time and offset
fields. -/
def february31 (hh mm ss oh om : List Char) : String :=
  String.mk (['2', '0', '1', '9'] ++ '-' :: (['0', '2'] ++ '-' :: (['3', '1'] ++ 'T' ::
    (hh ++ ':' :: (mm ++ ':' :: (ss ++ '+' :: (oh ++ ':' :: om)))))))

/-- The example world: the Item of the example with its output path ending in a separator. -/
def exWorld : World :=
  World.healthy [⟨"maya", "5f0c1a2b3c4d5e6f70818283", exItem "/data/abc123/"⟩] exFS

/-- The same world with the output path stored without the trailing separator. -/
def exWorldNoSlash : World :=
  World.healthy [⟨"maya", "5f0c1a2b3c4d5e6f70818283", exItem "/data/abc123"⟩] exFS

/-- The example Item with its usage counter at the largest `int64`. -/
def exItemMax : Item :=
  { exItem "/data/abc123/" with UsingRate := 9223372036854775807 }

/-- The example world over the Item with the counter at the largest `int64`. -/
def exWorldMax : World :=
  World.healthy [⟨"maya", "5f0c1a2b3c4d5e6f70818283", exItemMax⟩] exFS

/-- The example world in which copying the second file into the archive fails. -/
def exWorldCopyFails : World :=
  { exWorld with
    copyErr := fun n => if n = "b.png" then some "write: no space left on device" else none }

/-- The example world for a requester without a valid token. -/
def exWorldNoToken : World :=
  { exWorld with GetTokenFromHeader := fun _ => .error "token is missing" }

/-- The archive file of the example request. -/
def exZip : String := "/tmp/zip123456/5f0c1a2b3c4d5e6f70818283.zip"

/-- A request that carries an `id` and no `itemtype`. -/
def exRequestNoType : Request where
  Header := []
  Query := [("id", "5f0c1a2b3c4d5e6f70818283")]

/-! ## Lemmas and theorems -/

@[simp] theorem St.log_trace (s : St) (c : Call) (e : Option String) :
    (s.log c e).trace = s.trace ++ [⟨c, e⟩] := rfl

@[simp] theorem St.ret_trace (s : St) :
    s.ret.trace = s.trace ++ s.defers.map (fun c => ⟨c, none⟩) := by
  unfold St.ret
  generalize hs0 : ({ s with defers := [] } : St) = s0
  have h0 : s0.trace = s.trace := by rw [← hs0]
  rw [← h0]
  clear hs0 h0
  induction s.defers generalizing s0 with
  | nil => simp
  | cons c cs ih =>
    rw [List.foldl_cons, ih]
    cases c <;> simp [St.runDeferred]

theorem St.runDeferred_resp (s : St) (c : Call) : (s.runDeferred c).resp = s.resp := by
  cases c <;> rfl

theorem St.runDeferred_store (s : St) (c : Call) : (s.runDeferred c).store = s.store := by
  cases c <;> rfl

@[simp] theorem St.ret_resp (s : St) : s.ret.resp = s.resp := by
  unfold St.ret
  generalize hs0 : ({ s with defers := [] } : St) = s0
  have h0 : s0.resp = s.resp := by rw [← hs0]
  rw [← h0]
  clear hs0 h0
  induction s.defers generalizing s0 with
  | nil => simp
  | cons c cs ih => rw [List.foldl_cons, ih, St.runDeferred_resp]

@[simp] theorem St.ret_store (s : St) : s.ret.store = s.store := by
  unfold St.ret
  generalize hs0 : ({ s with defers := [] } : St) = s0
  have h0 : s0.store = s.store := by rw [← hs0]
  rw [← h0]
  clear hs0 h0
  induction s.defers generalizing s0 with
  | nil => simp
  | cons c cs ih => rw [List.foldl_cons, ih, St.runDeferred_store]

/-- C10: when the identity check fails, the handler answers with the redirect 303 to
`/signin` and does nothing else. Its whole trace is the failed check and the redirect, whatever
the query parameters are, and the store is left as it was. -/
theorem unauthenticated_redirect (w : World) (r : Request) (e : String)
    (h : w.GetTokenFromHeader r = .error e) :
    (handleDownloadItem w r).resp = .redirect "/signin" 303 ∧
    (handleDownloadItem w r).trace =
      [⟨.GetTokenFromHeader, some e⟩, ⟨.Redirect "/signin" 303, none⟩] ∧
    (handleDownloadItem w r).store = w.store := by
  unfold handleDownloadItem
  simp [h, St.httpRedirect, St.log]

/-- C1: a request that passes the identity check and has an empty `itemtype` or an empty `id`
is answered with 400; no call of the run is a call on the item store or on the filesystem, and
the store is left as it was. -/
theorem missing_parameter_bad_request (w : World) (r : Request) (tok : String)
    (hauth : w.GetTokenFromHeader r = .ok tok)
    (hmiss : Get r.Query "itemtype" = "" ∨ Get r.Query "id" = "") :
    (handleDownloadItem w r).resp.status = 400 ∧
    (∀ ev ∈ (handleDownloadItem w r).trace,
      ev.call.isPersistence = false ∧ ev.call.isFilesystem = false) ∧
    (handleDownloadItem w r).store = w.store := by
  unfold handleDownloadItem
  simp only [hauth]
  by_cases h1 : Get r.Query "itemtype" = ""
  · simp [h1, St.httpError, St.log, Response.status, Call.isPersistence, Call.isFilesystem]
  · have h2 : Get r.Query "id" = "" := by tauto
    simp [h1, h2, St.httpError, St.log, Response.status, Call.isPersistence, Call.isFilesystem]

theorem LoopExt.refl (s : St) : LoopExt s s true :=
  ⟨⟨[], by simp⟩, ⟨[], by simp⟩, rfl, rfl, rfl, rfl⟩

theorem LoopExt.trans {s t u : St} {ok : Bool} (h1 : LoopExt s t true) (h2 : LoopExt t u ok) :
    LoopExt s u ok := by
  obtain ⟨⟨ev1, e1, a1, b1, -⟩, ⟨cl1, c1, d1⟩, st1, dk1, rs1, hd1⟩ := h1
  obtain ⟨⟨ev2, e2, a2, b2, n2⟩, ⟨cl2, c2, d2⟩, st2, dk2, rs2, hd2⟩ := h2
  refine ⟨⟨ev1 ++ ev2, by rw [e2, e1, List.append_assoc], ?_, ?_, ?_⟩,
    ⟨cl2 ++ cl1, by rw [c2, c1, List.append_assoc], ?_⟩, st2.trans st1, dk2.trans dk1,
    rs2.trans rs1, hd2.trans hd1⟩
  · intro e he
    rcases List.mem_append.mp he with h | h
    · exact a1 e h
    · exact a2 e h
  · intro hok e he
    rcases List.mem_append.mp he with h | h
    · exact b1 rfl e h
    · exact b2 hok e h
  · intro hok
    obtain ⟨e, he, hne⟩ := n2 hok
    exact ⟨e, List.mem_append.mpr (Or.inr he), hne⟩
  · intro c hc
    rcases List.mem_append.mp hc with h | h
    · exact d2 c h
    · exact d1 c h

theorem LoopExt.log_ok (s : St) (c : Call) (hc : c.isEntryStep = true) :
    LoopExt s (s.log c none) true :=
  ⟨⟨[⟨c, none⟩], rfl, by simpa using hc, by simp, by simp⟩, ⟨[], rfl, by simp⟩, rfl, rfl, rfl, rfl⟩

theorem LoopExt.log_err (s : St) (c : Call) (e : String) (hc : c.isEntryStep = true) :
    LoopExt s (s.log c (some e)) false :=
  ⟨⟨[⟨c, some e⟩], rfl, by simpa using hc, by simp, by simp⟩, ⟨[], rfl, by simp⟩,
    rfl, rfl, rfl, rfl⟩

theorem LoopExt.defer (s : St) (p : String) : LoopExt s (s.defer (.fileClose p)) true :=
  ⟨⟨[], by simp [St.defer], by simp, by simp, by simp⟩,
    ⟨[.fileClose p], rfl, by simp [Call.isFileClose]⟩, rfl, rfl, rfl, rfl⟩

theorem LoopExt.addEntry (s : St) (n : String) : LoopExt s (s.addEntry n) true :=
  ⟨⟨[], by simp [St.addEntry], by simp, by simp, by simp⟩, ⟨[], rfl, by simp⟩, rfl, rfl, rfl, rfl⟩

theorem LoopExt.fillEntry (s : St) (n : String) (b : List Nat) :
    LoopExt s (s.fillEntry n b) true :=
  ⟨⟨[], by simp [St.fillEntry], by simp, by simp, by simp⟩, ⟨[], rfl, by simp⟩,
    rfl, rfl, rfl, rfl⟩

theorem addFiles_ext (w : World) (dataPath : String) :
    ∀ (files : List FileInfo) (s : St),
      LoopExt s (loopState (addFiles w dataPath files s)) (loopOk (addFiles w dataPath files s)) := by
  intro files
  induction files with
  | nil => intro s; exact LoopExt.refl s
  | cons f rest ih =>
    intro s
    unfold addFiles
    simp only []
    have hOpen := LoopExt.trans (LoopExt.log_ok s (.Open (dataPath ++ f.Name)) rfl)
      (LoopExt.defer _ (dataPath ++ f.Name))
    split
    · exact LoopExt.log_err s _ _ rfl
    · rename_i fileName _
      split
      · exact hOpen.trans (LoopExt.log_err _ _ _ rfl)
      · have hStat := hOpen.trans (LoopExt.log_ok _ (.Stat (dataPath ++ f.Name)) rfl)
        split
        · exact hStat.trans (LoopExt.log_err _ _ _ rfl)
        · have hInfo := hStat.trans (LoopExt.log_ok _ (.FileInfoHeader fileName.Name) rfl)
          split
          · exact hInfo.trans (LoopExt.log_err _ _ _ rfl)
          · have hHdr := (hInfo.trans (LoopExt.log_ok _ (.CreateHeader fileName.Name) rfl)).trans
              (LoopExt.addEntry _ fileName.Name)
            split
            · exact hHdr.trans (LoopExt.log_err _ _ _ rfl)
            · exact ((hHdr.trans (LoopExt.log_ok _ (.Copy fileName.Name) rfl)).trans
                (LoopExt.fillEntry _ fileName.Name fileName.Content)).trans (ih _)

theorem addFiles_error {w : World} {dataPath : String} {files : List FileInfo} {s t : St}
    {e : String} (h : addFiles w dataPath files s = .error (t, e)) : LoopExt s t false := by
  have hx := addFiles_ext w dataPath files s
  rw [h] at hx
  exact hx

theorem addFiles_ok {w : World} {dataPath : String} {files : List FileInfo} {s t : St}
    (h : addFiles w dataPath files s = .ok t) : LoopExt s t true := by
  have hx := addFiles_ext w dataPath files s
  rw [h] at hx
  exact hx

theorem isEntryStep_not_update {c : Call} (h : c.isEntryStep = true) :
    c.isUpdateUsingRate = false := by
  cases c <;> simp_all [Call.isEntryStep, Call.isUpdateUsingRate]

theorem isFileClose_not_update {c : Call} (h : c.isFileClose = true) :
    c.isUpdateUsingRate = false := by
  cases c <;> simp_all [Call.isFileClose, Call.isUpdateUsingRate]

theorem isFileClose_not_build {c : Call} (h : c.isFileClose = true) :
    c.isBuildStep = false := by
  cases c <;> simp_all [Call.isFileClose, Call.isBuildStep]

theorem build_failure_or_clean (w : World) (r : Request) :
    ((handleDownloadItem w r).resp.status = 500 ∧
      (∀ ev ∈ (handleDownloadItem w r).trace, ev.call.isUpdateUsingRate = false) ∧
      (handleDownloadItem w r).store = w.store) ∨
    (∀ ev ∈ (handleDownloadItem w r).trace, ev.call.isBuildStep = true → ev.err = none) := by
  unfold handleDownloadItem
  simp only []
  split
  · simp [St.httpRedirect, St.log, Call.isBuildStep]
  split
  · simp [St.httpError, St.log, Call.isBuildStep]
  split
  · simp [St.httpError, St.log, Call.isBuildStep]
  split
  · simp [St.httpError, St.log, Call.isBuildStep]
  split
  · simp [St.httpError, St.log, St.defer, Call.isBuildStep]
  split
  · simp [St.httpError, St.log, St.defer, Call.isBuildStep]
  split
  · simp [St.httpError, St.log, St.defer, Call.isBuildStep]
  split
  · simp [St.httpError, St.log, St.defer, Call.isBuildStep, Response.status,
      Call.isUpdateUsingRate]
  split
  · simp [St.httpError, St.log, St.defer, St.created, Call.isBuildStep, Response.status,
      Call.isUpdateUsingRate]
  split
  · simp [St.httpError, St.log, St.defer, St.created, Call.isBuildStep, Response.status,
      Call.isUpdateUsingRate]
  split
  · rename_i s1 e1 hloop
    obtain ⟨⟨ev, e1, a1, -, -⟩, ⟨cl, c1, d1⟩, st1, -, -, -⟩ := addFiles_error hloop
    left
    simp [St.httpError, Response.status, St.log, St.defer, St.created, e1, c1, st1, or_imp,
      forall_and, Call.isUpdateUsingRate]
    exact ⟨fun e he => isEntryStep_not_update (a1 e he),
      fun c hc => isFileClose_not_update (d1 c hc)⟩
  · rename_i s1 hloop
    obtain ⟨⟨ev, e1, a1, b1, -⟩, ⟨cl, c1, d1⟩, st1, -, -, -⟩ := addFiles_ok hloop
    right
    split
    · simp [St.httpError, Response.status, St.log, St.defer, St.created, e1, c1, st1, or_imp,
        forall_and, Call.isBuildStep]
      exact fun e he _ => b1 rfl e he
    · simp [St.serveFile, St.headerAdd, St.withStore, Response.status, St.log, St.defer,
        St.created, e1, c1, st1, or_imp, forall_and, Call.isBuildStep]
      exact fun e he _ => b1 rfl e he

/-- C4: when a step that builds the archive returns an error (TempDir, Create, ReadDir, Open,
Stat, FileInfoHeader, CreateHeader or Copy), the response is 500, UpdateUsingRate is never
called and the store is left as it was. -/
theorem failed_build_never_increments (w : World) (r : Request)
    (h : ∃ ev ∈ (handleDownloadItem w r).trace, ev.call.isBuildStep = true ∧ ev.err ≠ none) :
    (handleDownloadItem w r).resp.status = 500 ∧
    (∀ ev ∈ (handleDownloadItem w r).trace, ev.call.isUpdateUsingRate = false) ∧
    (handleDownloadItem w r).store = w.store := by
  rcases build_failure_or_clean w r with h1 | h1
  · exact h1
  · obtain ⟨ev, hev, hb, hne⟩ := h
    exact absurd (h1 ev hev hb) hne

theorem foldl_runDeferred_disk (cs : List Call) : ∀ s0 : St,
    (cs.foldl St.runDeferred s0).disk = s0.disk.filter (fun p => cs.all (fun c => !c.removes p)) := by
  induction cs with
  | nil => intro s0; simp
  | cons c cs ih =>
    intro s0
    rw [List.foldl_cons, ih]
    have h : (s0.runDeferred c).disk = s0.disk.filter (fun p => !c.removes p) := by
      cases c <;> simp [St.runDeferred, Call.removes]
    rw [h, List.filter_filter]
    congr 1
    funext p
    simp [Bool.and_comm]

theorem St.ret_disk (s : St) :
    s.ret.disk = s.disk.filter (fun p => s.defers.all (fun c => !c.removes p)) := by
  unfold St.ret
  rw [foldl_runDeferred_disk]

theorem inside_self (d : String) : inside d d = true := by simp [inside]

theorem inside_child (d rest : String) : inside d (d ++ "/" ++ rest) = true := by
  have h : (d.data ++ ['/']).isPrefixOf (d ++ "/" ++ rest).data = true := by
    rw [List.isPrefixOf_iff_prefix]
    exact ⟨rest.data, by simp [String.data_append]⟩
  simp [inside, h]

theorem inside_child_zip (d id : String) : inside d (d ++ "/" ++ id ++ ".zip") = true := by
  have h := inside_child d (id ++ ".zip")
  rwa [← String.append_assoc] at h

theorem ret_split (s : St) (top : List Call) (d : String)
    (h : s.defers = top ++ [.RemoveAll d, .Disconnect, .cancel]) :
    ∃ pre post, s.ret.trace = pre ++ ⟨.RemoveAll d, none⟩ :: post ∧
      ∀ e ∈ post, e.call.usesWorkspace = false :=
  ⟨s.trace ++ top.map (fun c => ⟨c, none⟩), [⟨.Disconnect, none⟩, ⟨.cancel, none⟩],
    by simp [h], by simp [Call.usesWorkspace]⟩

theorem findOne_withStorage (f : Storage → Storage) (db : Store) (c k : String) :
    (db.withStorage f).findOne c k = (db.findOne c k).map (Item.withStorage f) := by
  induction db with
  | nil => rfl
  | cons d rest ih =>
    show Store.findOne ({ d with item := d.item.withStorage f } :: Store.withStorage f rest)
      c k = _
    unfold Store.findOne
    by_cases hd : d.collection = c ∧ d.oid = k
    · rw [if_pos hd, if_pos hd]
      rfl
    · rw [if_neg hd, if_neg hd]
      exact ih

theorem writeBack_withStorage (f : Storage → Storage) (db : Store) (c k : String) (doc : Item) :
    (db.withStorage f).writeBack c k (doc.withStorage f) =
      (db.writeBack c k doc).withStorage f := by
  induction db with
  | nil => rfl
  | cons d rest ih =>
    show Store.writeBack ({ d with item := d.item.withStorage f } :: Store.withStorage f rest)
      c k _ = _
    unfold Store.writeBack
    by_cases hd : d.collection = c ∧ d.oid = k
    · rw [if_pos hd, if_pos hd]
      rfl
    · rw [if_neg hd, if_neg hd]
      show _ :: _ = { d with item := d.item.withStorage f } ::
        Store.withStorage f (Store.writeBack rest c k doc)
      rw [ih]

theorem GetItem_withStorage (f : Storage → Storage) (fault : Option String) (db : Store)
    (t id : String) :
    GetItem fault (db.withStorage f) t id =
      match GetItem fault db t id with
      | .ok i => .ok (i.withStorage f)
      | .error e => .error e := by
  unfold GetItem
  cases ObjectIDFromHex id with
  | error e => rfl
  | ok objID =>
    cases fault with
    | some e => rfl
    | none =>
      simp only [findOne_withStorage]
      cases db.findOne t objID <;> rfl

theorem UpdateUsingRate_withStorage (f : Storage → Storage) (rf wf : Option String) (db : Store)
    (t id : String) :
    UpdateUsingRate rf wf (db.withStorage f) t id =
      match UpdateUsingRate rf wf db t id with
      | .ok (n, db1) => .ok (n, db1.withStorage f)
      | .error e => .error e := by
  unfold UpdateUsingRate
  cases ObjectIDFromHex id with
  | error e => rfl
  | ok objID =>
    simp only []
    rw [GetItem_withStorage]
    cases GetItem rf db t id with
    | error e => rfl
    | ok item =>
      cases wf with
      | some e => rfl
      | none =>
        have h := writeBack_withStorage f db t objID
          { item with UsingRate := wrapInt64 (item.UsingRate + 1) }
        simp only [Item.withStorage] at h ⊢
        rw [h]

theorem addFiles_world (f : Storage → Storage) (w : World) (dataPath : String) :
    ∀ (files : List FileInfo) (s : St),
      addFiles (w.withStorage f) dataPath files s = addFiles w dataPath files s := by
  intro files
  induction files with
  | nil => intro s; rfl
  | cons x rest ih =>
    intro s
    unfold addFiles
    simp only [ih]
    rfl

theorem log_withStore (s : St) (db : Store) (c : Call) (e : Option String) :
    (s.withStore db).log c e = (s.log c e).withStore db := rfl

theorem defer_withStore (s : St) (db : Store) (c : Call) :
    (s.withStore db).defer c = (s.defer c).withStore db := rfl

theorem addEntry_withStore (s : St) (db : Store) (n : String) :
    (s.withStore db).addEntry n = (s.addEntry n).withStore db := rfl

theorem fillEntry_withStore (s : St) (db : Store) (n : String) (b : List Nat) :
    (s.withStore db).fillEntry n b = (s.fillEntry n b).withStore db := rfl

theorem created_withStore (s : St) (db : Store) (p : String) :
    (s.withStore db).created p = (s.created p).withStore db := rfl

theorem httpError_withStore (s : St) (db : Store) (m : String) (n : Nat) :
    (s.withStore db).httpError m n = (s.httpError m n).withStore db := rfl

theorem httpRedirect_withStore (s : St) (db : Store) (m : String) (n : Nat) :
    (s.withStore db).httpRedirect m n = (s.httpRedirect m n).withStore db := rfl

theorem headerAdd_withStore (s : St) (db : Store) (k v : String) :
    (s.withStore db).headerAdd k v = (s.headerAdd k v).withStore db := rfl

theorem serveFile_withStore (s : St) (db : Store) (n : Nat) (p : String) :
    (s.withStore db).serveFile n p = (s.serveFile n p).withStore db := rfl

theorem addFiles_withStore (w : World) (dataPath : String) (db : Store) :
    ∀ (files : List FileInfo) (s : St),
      addFiles w dataPath files (s.withStore db) =
        match addFiles w dataPath files s with
        | .ok t => .ok (t.withStore db)
        | .error (t, e) => .error (t.withStore db, e) := by
  intro files
  induction files with
  | nil => intro s; rfl
  | cons x rest ih =>
    intro s
    unfold addFiles
    simp only []
    cases w.Open (dataPath ++ x.Name) with
    | error e => rfl
    | ok fileName =>
      simp only []
      cases w.statErr (dataPath ++ x.Name) with
      | some e => rfl
      | none =>
        simp only []
        cases w.fileInfoHeaderErr fileName.Name with
        | some e => rfl
        | none =>
          simp only []
          cases w.createHeaderErr fileName.Name with
          | some e => rfl
          | none =>
            simp only []
            cases w.copyErr fileName.Name with
            | some e => rfl
            | none =>
              simp only [log_withStore, defer_withStore, addEntry_withStore, fillEntry_withStore]
              exact ih _

theorem runDeferred_withStore (s : St) (db : Store) (c : Call) :
    (s.withStore db).runDeferred c = (s.runDeferred c).withStore db := by
  cases c <;> rfl

theorem ret_withStore (s : St) (db : Store) : (s.withStore db).ret = s.ret.withStore db := by
  unfold St.ret
  have h : ∀ (cs : List Call) (s0 : St),
      cs.foldl St.runDeferred (s0.withStore db) = (cs.foldl St.runDeferred s0).withStore db := by
    intro cs
    induction cs with
    | nil => intro s0; rfl
    | cons c cs ih => intro s0; rw [List.foldl_cons, List.foldl_cons, runDeferred_withStore, ih]
  exact h s.defers { s with defers := [] }

theorem withStore_store (s : St) (db : Store) : (s.withStore db).store = db := rfl

theorem withStore_withStore (s : St) (a b : Store) : (s.withStore a).withStore b = s.withStore b :=
  rfl

theorem log_store (s : St) (c : Call) (e : Option String) : (s.log c e).store = s.store := rfl

theorem defer_store (s : St) (c : Call) : (s.defer c).store = s.store := rfl

theorem created_store (s : St) (p : String) : (s.created p).store = s.store := rfl

theorem httpError_store (s : St) (m : String) (n : Nat) : (s.httpError m n).store = s.store := rfl

theorem httpRedirect_store (s : St) (m : String) (n : Nat) :
    (s.httpRedirect m n).store = s.store := rfl

theorem headerAdd_store (s : St) (k v : String) : (s.headerAdd k v).store = s.store := rfl

theorem serveFile_store (s : St) (n : Nat) (p : String) : (s.serveFile n p).store = s.store := rfl

theorem handleDownloadItem_withStorage (f : Storage → Storage) (w : World) (r : Request) :
    handleDownloadItem (w.withStorage f) r =
      (handleDownloadItem w r).withStore ((handleDownloadItem w r).store.withStorage f) := by
  unfold handleDownloadItem
  simp only [addFiles_world]
  have hinit : (⟨[], [], (w.withStorage f).store, [], ⟨[], false⟩, [], .none⟩ : St) =
      (⟨[], [], w.store, [], ⟨[], false⟩, [], .none⟩ : St).withStore (w.store.withStorage f) := rfl
  rw [hinit]
  generalize hs0 : (⟨[], [], w.store, [], ⟨[], false⟩, [], .none⟩ : St) = s0
  have hst : s0.store = w.store := by rw [← hs0]
  clear hs0 hinit
  simp only [World.withStorage, log_withStore, defer_withStore, created_withStore,
    httpError_withStore, httpRedirect_withStore, ret_withStore, withStore_store,
    GetItem_withStorage, log_store, defer_store, hst]
  cases w.GetTokenFromHeader r with
  | error e =>
    simp only [St.ret_store, httpRedirect_store, log_store, hst]
  | ok tok =>
    simp only []
    split
    · simp only [St.ret_store, httpError_store, log_store, hst]
    split
    · simp only [St.ret_store, httpError_store, log_store, hst]
    cases w.newClientErr with
    | some e => simp only [St.ret_store, httpError_store, log_store, hst]
    | none =>
    simp only []
    cases w.connectErr with
    | some e => simp only [St.ret_store, httpError_store, log_store, defer_store, hst]
    | none =>
    simp only []
    cases w.pingErr with
    | some e => simp only [St.ret_store, httpError_store, log_store, defer_store, hst]
    | none =>
    simp only []
    cases GetItem w.getItemFault w.store (Get r.Query "itemtype") (Get r.Query "id") with
    | error e => simp only [St.ret_store, httpError_store, log_store, defer_store, hst]
    | ok item =>
    simp only []
    cases w.TempDir with
    | error e => simp only [St.ret_store, httpError_store, log_store, defer_store, hst]
    | ok tempDir =>
    simp only []
    cases w.createErr (tempDir ++ "/" ++ Get r.Query "id" ++ ".zip") with
    | some e =>
      simp only [St.ret_store, httpError_store, log_store, defer_store, created_store, hst]
    | none =>
    simp only []
    have hpath : (item.withStorage f).OutputDataPath = item.OutputDataPath := rfl
    rw [hpath]
    cases w.ReadDir item.OutputDataPath with
    | error e =>
      simp only [St.ret_store, httpError_store, log_store, defer_store, created_store, hst]
    | ok files =>
    simp only [addFiles_withStore]
    cases hloop : addFiles w item.OutputDataPath files
      (((((((((((((((s0.log Call.GetTokenFromHeader none).log Call.NewClient none).defer
        Call.cancel).defer Call.Disconnect).log Call.Connect none).log Call.Ping none).log
        (Call.GetItem (Get r.Query "itemtype") (Get r.Query "id")) none).log
        Call.TempDir none).created tempDir).defer (Call.RemoveAll tempDir)).log
        (Call.Create (tempDir ++ "/" ++ Get r.Query "id" ++ ".zip")) none).created
        (tempDir ++ "/" ++ Get r.Query "id" ++ ".zip")).defer
        (Call.zipFileClose (tempDir ++ "/" ++ Get r.Query "id" ++ ".zip"))).defer
        Call.zipWriterClose).log (Call.ReadDir item.OutputDataPath) none) with
    | error p =>
      obtain ⟨s1, e1⟩ := p
      have hs1 : s1.store = w.store := by
        rw [(addFiles_error hloop).store]
        simp only [log_store, defer_store, created_store, hst]
      simp only [httpError_withStore, ret_withStore, St.ret_store, httpError_store, hs1]
    | ok s1 =>
      have hs1 : s1.store = w.store := by
        rw [(addFiles_ok hloop).store]
        simp only [log_store, defer_store, created_store, hst]
      simp only [withStore_store, UpdateUsingRate_withStorage, hs1]
      cases UpdateUsingRate w.trackerReadFault w.trackerWriteFault w.store
        (Get r.Query "itemtype") (Get r.Query "id") with
      | error e =>
        simp only [log_withStore, httpError_withStore, ret_withStore, St.ret_store,
          httpError_store, log_store, hs1]
      | ok p =>
        obtain ⟨n, db⟩ := p
        simp only [log_withStore, withStore_withStore, headerAdd_withStore, serveFile_withStore,
          ret_withStore, withStore_store]

/-- C6: after every run, failed or not, no path of the temporary workspace is left on disk.
When TempDir succeeded, the trace has the `RemoveAll` of that directory and no call after it
uses the workspace or the archive file in it; when TempDir did not succeed, no call of the run
uses a workspace. -/
theorem workspace_removed (w : World) (r : Request) :
    (handleDownloadItem w r).disk = [] ∧
    (∀ d, w.TempDir = .ok d → ⟨.TempDir, none⟩ ∈ (handleDownloadItem w r).trace →
      ∃ pre post, (handleDownloadItem w r).trace = pre ++ ⟨.RemoveAll d, none⟩ :: post ∧
        ∀ e ∈ post, e.call.usesWorkspace = false) ∧
    (⟨.TempDir, none⟩ ∉ (handleDownloadItem w r).trace →
      ∀ e ∈ (handleDownloadItem w r).trace, e.call.usesWorkspace = false) := by
  unfold handleDownloadItem
  simp only []
  split
  · simp [St.httpRedirect, St.log, St.ret_disk, Call.usesWorkspace]
  split
  · simp [St.httpError, St.log, St.ret_disk, Call.usesWorkspace]
  split
  · simp [St.httpError, St.log, St.ret_disk, Call.usesWorkspace]
  split
  · simp [St.httpError, St.log, St.ret_disk, Call.usesWorkspace]
  split
  · simp [St.httpError, St.log, St.defer, St.ret_disk, Call.usesWorkspace]
  split
  · simp [St.httpError, St.log, St.defer, St.ret_disk, Call.usesWorkspace]
  split
  · simp [St.httpError, St.log, St.defer, St.ret_disk, Call.usesWorkspace]
  split
  · simp [St.httpError, St.log, St.defer, St.ret_disk, Call.usesWorkspace]
  rename_i tempDir htemp
  simp only [htemp, Except.ok.injEq, forall_eq']
  split
  · refine ⟨by simp [St.httpError, St.log, St.defer, St.created, St.ret_disk, Call.removes,
      inside_self], fun _ => ret_split _ [] _ rfl, ?_⟩
    simp [St.httpError, St.log, St.defer, St.created]
  split
  · refine ⟨by simp [St.httpError, St.log, St.defer, St.created, St.ret_disk, Call.removes,
      inside_self, inside_child_zip], fun _ => ret_split _ [_, _] _ rfl, ?_⟩
    simp [St.httpError, St.log, St.defer, St.created]
  split
  · rename_i s1 e1 hloop
    obtain ⟨⟨ev, e1, a1, -, -⟩, ⟨cl, c1, d1⟩, -, dk1, -, -⟩ := addFiles_error hloop
    refine ⟨by simp [St.httpError, St.log, St.defer, St.created, St.ret_disk, Call.removes,
      inside_self, inside_child_zip, dk1, c1],
      fun _ => ret_split _ (cl ++ [.zipWriterClose, .zipFileClose (tempDir ++ "/" ++ Get r.Query "id" ++ ".zip")]) _ (by simp [St.httpError, c1, St.log, St.defer, St.created]), ?_⟩
    simp [St.httpError, St.log, St.defer, St.created, e1]
  · rename_i s1 hloop
    obtain ⟨⟨ev, e1, a1, -, -⟩, ⟨cl, c1, d1⟩, -, dk1, -, -⟩ := addFiles_ok hloop
    split
    · refine ⟨by simp [St.httpError, St.log, St.defer, St.created, St.ret_disk, Call.removes,
        inside_self, inside_child_zip, dk1, c1],
        fun _ => ret_split _ (cl ++ [.zipWriterClose, .zipFileClose (tempDir ++ "/" ++ Get r.Query "id" ++ ".zip")]) _ (by simp [St.httpError, c1, St.log, St.defer, St.created]), ?_⟩
      simp [St.httpError, St.log, St.defer, St.created, e1]
    · refine ⟨by simp [St.serveFile, St.headerAdd, St.withStore, St.log, St.defer, St.created, St.ret_disk, Call.removes,
        inside_self, inside_child_zip, dk1, c1],
        fun _ => ret_split _ (cl ++ [.zipWriterClose, .zipFileClose (tempDir ++ "/" ++ Get r.Query "id" ++ ".zip")]) _ (by simp [St.serveFile, St.headerAdd, St.withStore, c1, St.log, St.defer, St.created]), ?_⟩
      simp [St.serveFile, St.headerAdd, St.withStore, St.log, St.defer, St.created, e1]

theorem findOne_writeBack {db : Store} {c k : String} {i : Item} (doc : Item)
    (h : db.findOne c k = some i) : (db.writeBack c k doc).findOne c k = some doc := by
  induction db with
  | nil => simp [Store.findOne] at h
  | cons d rest ih =>
    unfold Store.findOne at h
    unfold Store.writeBack
    split at h
    · rename_i hd
      rw [if_pos hd]
      simp [Store.findOne, hd]
    · rename_i hd
      rw [if_neg hd]
      unfold Store.findOne
      rw [if_neg hd]
      exact ih h

theorem GetItem_ok {fault : Option String} {db : Store} {t id : String} {i : Item}
    (h : GetItem fault db t id = .ok i) :
    ∃ objID, ObjectIDFromHex id = .ok objID ∧ fault = none ∧ db.findOne t objID = some i := by
  unfold GetItem at h
  split at h
  · cases h
  · rename_i objID hobj
    split at h
    · cases h
    · split at h
      · cases h
      · rename_i res hres
        cases h
        exact ⟨objID, hobj, rfl, hres⟩

theorem filter_update_entry {ev : List Event} (h : ∀ e ∈ ev, e.call.isEntryStep = true) :
    ev.filter (fun e => e.call.isUpdateUsingRate) = [] := by
  rw [List.filter_eq_nil_iff]
  intro e he
  simp [isEntryStep_not_update (h e he)]

theorem filter_update_close {cl : List Call} (h : ∀ c ∈ cl, c.isFileClose = true) :
    (cl.map (fun c => (⟨c, none⟩ : Event))).filter (fun e => e.call.isUpdateUsingRate) = [] := by
  rw [List.filter_eq_nil_iff]
  intro e he
  obtain ⟨c, hc, rfl⟩ := List.mem_map.mp he
  simp [isFileClose_not_update (h c hc)]

theorem wrapInt64_succ {x : Int} (h1 : IsInt64 x) (h2 : x < 2 ^ 63 - 1) :
    wrapInt64 (x + 1) = x + 1 := by
  unfold IsInt64 at h1
  unfold wrapInt64
  norm_num at h1 h2 ⊢
  omega

theorem successful_download_tracks_once (w : World) (r : Request)
    (h : (handleDownloadItem w r).resp.status = 200) :
    ∃ (item : Item) (objID : String),
      ObjectIDFromHex (Get r.Query "id") = .ok objID ∧
      GetItem none w.store (Get r.Query "itemtype") (Get r.Query "id") = .ok item ∧
      (handleDownloadItem w r).trace.filter (fun e => e.call.isUpdateUsingRate) =
        [⟨.UpdateUsingRate (Get r.Query "itemtype") (Get r.Query "id"), none⟩] ∧
      (handleDownloadItem w r).store =
        w.store.writeBack (Get r.Query "itemtype") objID
          { item with UsingRate := wrapInt64 (item.UsingRate + 1) } ∧
      GetItem none (handleDownloadItem w r).store (Get r.Query "itemtype") (Get r.Query "id") =
        .ok { item with UsingRate := wrapInt64 (item.UsingRate + 1) } := by
  revert h
  unfold handleDownloadItem
  simp only []
  split
  · simp [St.httpRedirect, St.log, Response.status]
  split
  · simp [St.httpError, St.log, Response.status]
  split
  · simp [St.httpError, St.log, Response.status]
  split
  · simp [St.httpError, St.log, Response.status]
  split
  · simp [St.httpError, St.log, Response.status]
  split
  · simp [St.httpError, St.log, Response.status]
  split
  · simp [St.httpError, St.log, Response.status]
  rename_i item hget
  split
  · simp [St.httpError, St.log, Response.status]
  split
  · simp [St.httpError, St.log, Response.status]
  split
  · simp [St.httpError, St.log, Response.status]
  split
  · simp [St.httpError, St.log, Response.status]
  rename_i s1 hloop
  obtain ⟨⟨ev, e1, a1, -, -⟩, ⟨cl, c1, d1⟩, st1, -, -, -⟩ := addFiles_ok hloop
  split
  · simp [St.httpError, St.log, Response.status]
  rename_i n db htrack
  intro _
  have hst : s1.store = w.store := by simpa [St.log, St.defer, St.created] using st1
  rw [hst] at htrack
  have hget1 : GetItem w.getItemFault w.store (Get r.Query "itemtype") (Get r.Query "id") =
      .ok item := hget
  obtain ⟨objID, hobj, hfault, hfind⟩ := GetItem_ok hget1
  have hnone : GetItem none w.store (Get r.Query "itemtype") (Get r.Query "id") = .ok item := by
    simp [GetItem, hobj, hfind]
  unfold UpdateUsingRate at htrack
  rw [hobj] at htrack
  simp only [] at htrack
  split at htrack
  · cases htrack
  rename_i item2 hget2
  obtain ⟨objID2, hobj2, -, hfind2⟩ := GetItem_ok hget2
  have : item2 = item := by
    rw [hobj] at hobj2
    cases hobj2
    rw [hfind] at hfind2
    cases hfind2
    rfl
  subst this
  split at htrack
  · cases htrack
  cases htrack
  refine ⟨item2, objID, hobj, hnone, ?_,
    by simp [St.serveFile, St.headerAdd, St.withStore, St.log], ?_⟩
  · simp only [St.ret_trace, St.serveFile, St.headerAdd, St.withStore, St.log, St.defer,
      St.created, e1, c1,
      List.map_append, List.filter_append, filter_update_entry a1, filter_update_close d1]
    simp [List.filter, Call.isUpdateUsingRate]
  · simp only [St.ret_store, St.serveFile, St.headerAdd, St.withStore, St.log]
    simp only [GetItem, hobj]
    rw [findOne_writeBack _ hfind]

theorem matchK_iff (r : Regex) : ∀ (s : List Char) (k : List Char → Bool),
    matchK r s k = true ↔ ∃ s1 s2, s = s1 ++ s2 ∧ r.Lang s1 ∧ k s2 = true := by
  induction r with
  | eps =>
    intro s k
    simp only [matchK, Regex.Lang]
    constructor
    · intro h; exact ⟨[], s, rfl, rfl, h⟩
    · rintro ⟨_, s2, rfl, rfl, hk⟩; exact hk
  | lit c =>
    intro s k
    cases s with
    | nil => simp [matchK, Regex.Lang]
    | cons x t =>
      simp only [matchK, Regex.Lang, Bool.and_eq_true, decide_eq_true_eq]
      constructor
      · rintro ⟨rfl, h⟩; exact ⟨[x], t, rfl, rfl, h⟩
      · rintro ⟨s1, s2, h, rfl, hk⟩
        simp at h; obtain ⟨rfl, rfl⟩ := h; exact ⟨rfl, hk⟩
  | cls rs =>
    intro s k
    cases s with
    | nil => simp [matchK, Regex.Lang]
    | cons x t =>
      simp only [matchK, Regex.Lang, Bool.and_eq_true]
      constructor
      · rintro ⟨h1, h⟩; exact ⟨[x], t, rfl, ⟨x, rfl, h1⟩, h⟩
      · rintro ⟨s1, s2, h, ⟨y, rfl, hy⟩, hk⟩
        simp at h; obtain ⟨rfl, rfl⟩ := h; exact ⟨hy, hk⟩
  | cat a b iha ihb =>
    intro s k
    simp only [matchK, Regex.Lang, iha, ihb]
    constructor
    · rintro ⟨s1, s2, rfl, h1, s3, s4, rfl, h3, hk⟩
      exact ⟨s1 ++ s3, s4, by simp, ⟨s1, s3, rfl, h1, h3⟩, hk⟩
    · rintro ⟨_, s4, rfl, ⟨s1, s3, rfl, h1, h3⟩, hk⟩
      exact ⟨s1, s3 ++ s4, by simp, h1, s3, s4, rfl, h3, hk⟩
  | alt a b iha ihb =>
    intro s k
    simp only [matchK, Regex.Lang, Bool.or_eq_true, iha, ihb]
    constructor
    · rintro (⟨s1, s2, rfl, h1, hk⟩ | ⟨s1, s2, rfl, h1, hk⟩)
      · exact ⟨s1, s2, rfl, Or.inl h1, hk⟩
      · exact ⟨s1, s2, rfl, Or.inr h1, hk⟩
    · rintro ⟨s1, s2, rfl, (h1 | h1), hk⟩
      · exact Or.inl ⟨s1, s2, rfl, h1, hk⟩
      · exact Or.inr ⟨s1, s2, rfl, h1, hk⟩
  | opt a iha =>
    intro s k
    simp only [matchK, Regex.Lang, Bool.or_eq_true, iha]
    constructor
    · rintro (⟨s1, s2, rfl, h1, hk⟩ | hk)
      · exact ⟨s1, s2, rfl, Or.inr h1, hk⟩
      · exact ⟨[], s, rfl, Or.inl rfl, hk⟩
    · rintro ⟨s1, s2, rfl, (rfl | h1), hk⟩
      · exact Or.inr hk
      · exact Or.inl ⟨s1, s2, rfl, h1, hk⟩

theorem matchString_anchored (body : Regex) (s : String) :
    (Regexp.mk true body true).MatchString s = true ↔ body.Lang s.data := by
  simp only [Regexp.MatchString, if_true, List.any_cons, List.any_nil, Bool.or_false,
    matchK_iff, Bool.not_true, Bool.false_or, List.isEmpty_iff]
  constructor
  · rintro ⟨s1, s2, h, h1, rfl⟩
    simpa [h] using h1
  · intro h
    exact ⟨s.data, [], by simp, h, rfl⟩

theorem char_eq_of_toNat {c d : Char} (h : c.toNat = d.toNat) : c = d :=
  Char.ext (UInt32.ext h)

theorem inClass_digit (x : Char) : inClass [('0', '9')] x = true ↔ asciiDigit x := by
  simp [inClass, asciiDigit]

theorem lang_cat (a b : Regex) (t : List Char) :
    (Regex.cat a b).Lang t ↔ ∃ s1 s2, t = s1 ++ s2 ∧ a.Lang s1 ∧ b.Lang s2 := Iff.rfl

theorem lang_lit (c : Char) (t : List Char) : (Regex.lit c).Lang t ↔ t = [c] := Iff.rfl

theorem lang_digit (t : List Char) : digit.Lang t ↔ ∃ x, t = [x] ∧ asciiDigit x := by
  show (∃ x, t = [x] ∧ inClass [('0', '9')] x = true) ↔ _
  simp only [inClass_digit]

theorem lang_digits (n : Nat) : ∀ t, (digit.times n).Lang t ↔ Digits n t := by
  induction n with
  | zero =>
    intro t
    simp only [Regex.times, Regex.Lang, Digits]
    constructor
    · rintro rfl; simp
    · rintro ⟨h, -⟩; exact List.length_eq_zero.mp h
  | succ n ih =>
    intro t
    rw [Regex.times, lang_cat]
    simp only [ih, lang_digit, Digits]
    constructor
    · rintro ⟨_, s2, rfl, ⟨x, rfl, hx⟩, h2, h3⟩
      refine ⟨by simp [h2], ?_⟩
      intro c hc
      simp at hc
      rcases hc with rfl | hc
      · exact hx
      · exact h3 c hc
    · rintro ⟨hl, hd⟩
      cases t with
      | nil => simp at hl
      | cons x t =>
        refine ⟨[x], t, rfl, ⟨x, rfl, hd x (by simp)⟩, by simpa using hl, ?_⟩
        intro c hc
        exact hd c (by simp [hc])

theorem list_len_one {t : List Char} (h : t.length = 1) : ∃ x, t = [x] := by
  match t, h with
  | [x], _ => exact ⟨x, rfl⟩

theorem list_len_two {t : List Char} (h : t.length = 2) : ∃ x y, t = [x, y] := by
  match t, h with
  | [x, y], _ => exact ⟨x, y, rfl⟩

theorem lang_month (t : List Char) :
    (Regex.alt (.cat (.opt (.lit '0')) (.cls [('1', '9')]))
      (.cat (.lit '1') (.cls [('0', '0'), ('1', '1'), ('2', '2')]))).Lang t ↔ Numeral 1 12 t := by
  constructor
  · intro h
    simp only [Regex.Lang, inClass, List.any_cons, List.any_nil, Bool.or_false, Bool.and_eq_true,
      Bool.or_eq_true, decide_eq_true_eq] at h
    have e0 : '0'.toNat = 48 := rfl
    have e1 : '1'.toNat = 49 := rfl
    have e2 : '2'.toNat = 50 := rfl
    have e9 : '9'.toNat = 57 := rfl
    rcases h with ⟨s1, s2, rfl, (rfl | rfl), x, rfl, hx⟩ | ⟨s1, s2, rfl, rfl, x, rfl, hx⟩
    · simp only [Numeral, decVal, asciiDigit]
      simp
      omega
    · simp only [Numeral, decVal, asciiDigit]
      simp
      omega
    · simp only [Numeral, decVal, asciiDigit]
      simp
      omega
  · rintro ⟨hl, hd, hlo, hhi⟩
    simp only [Regex.Lang, inClass, List.any_cons, List.any_nil, Bool.or_false, Bool.and_eq_true,
      Bool.or_eq_true, decide_eq_true_eq]
    have e0 : '0'.toNat = 48 := rfl
    have e1 : '1'.toNat = 49 := rfl
    have e2 : '2'.toNat = 50 := rfl
    have e9 : '9'.toNat = 57 := rfl
    rcases hl with hl | hl
    · obtain ⟨x, rfl⟩ := list_len_one hl
      have hx := hd x (by simp)
      simp only [asciiDigit] at hx
      simp [decVal] at hlo hhi
      exact Or.inl ⟨[], [x], rfl, Or.inl rfl, x, rfl, by omega⟩
    · obtain ⟨a, b, rfl⟩ := list_len_two hl
      have ha := hd a (by simp)
      have hb := hd b (by simp)
      simp only [asciiDigit] at ha hb
      simp [decVal] at hlo hhi
      by_cases h0 : a.toNat = 48
      · have : a = '0' := char_eq_of_toNat h0
        subst this
        exact Or.inl ⟨['0'], [b], rfl, Or.inr rfl, b, rfl, by omega⟩
      · have h1 : a.toNat = 49 := by omega
        have : a = '1' := char_eq_of_toNat h1
        subst this
        exact Or.inr ⟨['1'], [b], rfl, rfl, b, rfl, by omega⟩

theorem lang_day (t : List Char) :
    (Regex.alt (.cat (.opt (.lit '0')) (.cls [('1', '9')]))
      (.alt (.cat (.cls [('1', '1'), ('2', '2')]) (.cls [('0', '9')]))
        (.cat (.lit '3') (.cls [('0', '0'), ('1', '1')])))).Lang t ↔ Numeral 1 31 t := by
  constructor
  · intro h
    simp only [Regex.Lang, inClass, List.any_cons, List.any_nil, Bool.or_false, Bool.and_eq_true,
      Bool.or_eq_true, decide_eq_true_eq] at h
    have e0 : '0'.toNat = 48 := rfl
    have e1 : '1'.toNat = 49 := rfl
    have e2 : '2'.toNat = 50 := rfl
    have e3 : '3'.toNat = 51 := rfl
    have e9 : '9'.toNat = 57 := rfl
    rcases h with ⟨s1, s2, rfl, (rfl | rfl), x, rfl, hx⟩ |
      ⟨s1, s2, rfl, ⟨y, rfl, hy⟩, x, rfl, hx⟩ | ⟨s1, s2, rfl, rfl, x, rfl, hx⟩
    · simp only [Numeral, decVal, asciiDigit]
      simp
      omega
    · simp only [Numeral, decVal, asciiDigit]
      simp
      omega
    · simp only [Numeral, decVal, asciiDigit]
      simp
      omega
    · simp only [Numeral, decVal, asciiDigit]
      simp
      omega
  · rintro ⟨hl, hd, hlo, hhi⟩
    simp only [Regex.Lang, inClass, List.any_cons, List.any_nil, Bool.or_false, Bool.and_eq_true,
      Bool.or_eq_true, decide_eq_true_eq]
    have e0 : '0'.toNat = 48 := rfl
    have e1 : '1'.toNat = 49 := rfl
    have e2 : '2'.toNat = 50 := rfl
    have e3 : '3'.toNat = 51 := rfl
    have e9 : '9'.toNat = 57 := rfl
    rcases hl with hl | hl
    · obtain ⟨x, rfl⟩ := list_len_one hl
      have hx := hd x (by simp)
      simp only [asciiDigit] at hx
      simp [decVal] at hlo hhi
      exact Or.inl ⟨[], [x], rfl, Or.inl rfl, x, rfl, by omega⟩
    · obtain ⟨a, b, rfl⟩ := list_len_two hl
      have ha := hd a (by simp)
      have hb := hd b (by simp)
      simp only [asciiDigit] at ha hb
      simp [decVal] at hlo hhi
      by_cases h0 : a.toNat = 48
      · have : a = '0' := char_eq_of_toNat h0
        subst this
        exact Or.inl ⟨['0'], [b], rfl, Or.inr rfl, b, rfl, by omega⟩
      · by_cases h3 : a.toNat = 51
        · have : a = '3' := char_eq_of_toNat h3
          subst this
          exact Or.inr (Or.inr ⟨['3'], [b], rfl, rfl, b, rfl, by omega⟩)
        · exact Or.inr (Or.inl ⟨[a], [b], rfl, ⟨a, rfl, by omega⟩, b, rfl, by omega⟩)

theorem lang_sign (t : List Char) :
    (Regex.cls [('-', '-'), ('+', '+')]).Lang t ↔ ∃ c, t = [c] ∧ (c = '+' ∨ c = '-') := by
  simp only [Regex.Lang, inClass, List.any_cons, List.any_nil, Bool.or_false, Bool.and_eq_true,
    Bool.or_eq_true, decide_eq_true_eq]
  constructor
  · rintro ⟨x, rfl, (h | h)⟩
    · exact ⟨x, rfl, Or.inr (char_eq_of_toNat (by omega))⟩
    · exact ⟨x, rfl, Or.inl (char_eq_of_toNat (by omega))⟩
  · rintro ⟨x, rfl, (rfl | rfl)⟩
    · exact ⟨'+', rfl, Or.inr ⟨le_refl _, le_refl _⟩⟩
    · exact ⟨'-', rfl, Or.inl ⟨le_refl _, le_refl _⟩⟩

theorem matchString_iff (s : String) :
    regexRFC3339Time.MatchString s = true ↔ StrictTimestamp s := by
  unfold regexRFC3339Time
  rw [matchString_anchored]
  simp only [lang_cat, lang_digits, lang_month, lang_day, lang_sign, lang_lit, StrictTimestamp]
  constructor
  · rintro ⟨year, _, h, hy, _, _, rfl, rfl, month, _, rfl, hm, _, _, rfl, rfl, day, _, rfl, hday,
      _, _, rfl, rfl, hh, _, rfl, hhh, _, _, rfl, rfl, mm, _, rfl, hmm, _, _, rfl, rfl,
      ss, _, rfl, hss, _, _, rfl, ⟨sign, rfl, hsign⟩, oh, _, rfl, hoh, _, om, rfl, rfl, hom⟩
    exact ⟨year, month, day, hh, mm, ss, oh, om, sign, by simpa using h, hy, hm, hday, hhh, hmm,
      hss, hsign, hoh, hom⟩
  · rintro ⟨year, month, day, hh, mm, ss, oh, om, sign, h, hy, hm, hday, hhh, hmm, hss, hsign,
      hoh, hom⟩
    exact ⟨year, _, h, hy, ['-'], _, rfl, rfl, month, _, rfl, hm, ['-'], _, rfl, rfl, day, _, rfl,
      hday, ['T'], _, rfl, rfl, hh, _, rfl, hhh, [':'], _, rfl, rfl, mm, _, rfl, hmm, [':'], _,
      rfl, rfl, ss, _, rfl, hss, [sign], _, rfl, ⟨sign, rfl, hsign⟩, oh, _, rfl, hoh, [':'], om,
      rfl, rfl, hom⟩

theorem not_digit_Z : ¬ asciiDigit 'Z' := by
  simp [asciiDigit]

theorem last_app (l m : List Char) (c : Char) (h : m.getLast? = some c) :
    (l ++ m).getLast? = some c := by
  rw [List.getLast?_append, h]
  rfl

theorem last_cons (a : Char) (m : List Char) (c : Char) (h : m.getLast? = some c) :
    (a :: m).getLast? = some c := last_app [a] m c h

theorem strict_last_digit {s : String} (h : StrictTimestamp s) :
    ∃ c, s.data.getLast? = some c ∧ asciiDigit c := by
  obtain ⟨year, month, day, hh, mm, ss, oh, om, sign, hs, -, -, -, -, -, -, -, -, hom⟩ := h
  obtain ⟨a, b, rfl⟩ := list_len_two hom.1
  refine ⟨b, ?_, hom.2 b (by simp)⟩
  rw [hs]
  apply last_app; apply last_cons
  apply last_app; apply last_cons
  apply last_app; apply last_cons
  apply last_app; apply last_cons
  apply last_app; apply last_cons
  apply last_app; apply last_cons
  apply last_app
  rfl

/-- C8: the pattern regexRFC3339Time matches a string exactly when the whole string is four
digits, `-`, a month 1..12 of one or two digits, `-`, a day 1..31 of one or two digits, `T`,
three two-digit fields separated by `:`, a sign and two two-digit fields separated by `:`. No
string ending in `Z` is matched, and the example of the source comment is matched. -/
theorem regexRFC3339Time_accepts_exactly_strict_timestamps :
    (∀ s : String, regexRFC3339Time.MatchString s = true ↔ StrictTimestamp s) ∧
    (∀ t : String, regexRFC3339Time.MatchString (t ++ "Z") = false) ∧
    regexRFC3339Time.MatchString "2019-09-09T02:46:52+09:00" = true := by
  refine ⟨matchString_iff, ?_, by decide⟩
  intro t
  cases hm : regexRFC3339Time.MatchString (t ++ "Z") with
  | false => rfl
  | true =>
    exfalso
    obtain ⟨c, hc, hd⟩ := strict_last_digit ((matchString_iff _).mp hm)
    have hz : (t ++ "Z").data.getLast? = some 'Z' := by
      rw [String.data_append]
      exact last_app _ _ _ rfl
    rw [hz] at hc
    cases hc
    exact not_digit_Z hd

/-- C9, counterexample: the pattern accepts `2019-9-9T99:99:99+99:99`, which is not a valid
RFC 3339 date-time: month and day have one digit and the time and offset fields are out of
range. -/
theorem regexRFC3339Time_accepts_invalid_timestamp :
    regexRFC3339Time.MatchString "2019-9-9T99:99:99+99:99" = true ∧
    ¬ RFC3339FieldRanges "2019-9-9T99:99:99+99:99" := by
  refine ⟨by decide, ?_⟩
  rintro ⟨year, month, day, hh, mm, ss, oh, om, sign, hs, hy, hm, hd, hhh, hmm, hss, -, hoh, hom⟩
  have hl := congrArg List.length hs
  simp [hy.1, hm.1.1, hd.1.1, hhh.1.1, hmm.1.1, hss.1.1, hoh.1.1, hom.1.1] at hl

theorem two_digits_le {t : List Char} (h : Digits 2 t) : TwoDigits 0 99 t := by
  refine ⟨h, Nat.zero_le _, ?_⟩
  obtain ⟨a, b, rfl⟩ := list_len_two h.1
  have ha := h.2 a (by simp)
  have hb := h.2 b (by simp)
  simp only [asciiDigit] at ha hb
  simp [decVal]
  omega

/-- C9, amended: every string the pattern accepts has the layout of the format with a month
1..12 and a day 1..31 of one or two digits and with hour, minute, second, offset hour and
offset minute of two digits each, whatever their value 00..99. Neither the ranges of the time
and offset fields nor the day against the month are checked: for any two-digit fields the
string `2019-02-31Thh:mm:ss+oh:om` is accepted. -/
theorem regexRFC3339Time_checks_shape_only :
    (∀ s : String, regexRFC3339Time.MatchString s = true → CheckedShape s) ∧
    (∀ hh mm ss oh om : List Char, Digits 2 hh → Digits 2 mm → Digits 2 ss → Digits 2 oh →
      Digits 2 om → regexRFC3339Time.MatchString (february31 hh mm ss oh om) = true) := by
  constructor
  · intro s h
    obtain ⟨year, month, day, hh, mm, ss, oh, om, sign, hs, hy, hm, hd, hhh, hmm, hss, hsg, hoh,
      hom⟩ := (matchString_iff s).mp h
    exact ⟨year, month, day, hh, mm, ss, oh, om, sign, hs, hy, hm, hd, two_digits_le hhh,
      two_digits_le hmm, two_digits_le hss, hsg, two_digits_le hoh, two_digits_le hom⟩
  · intro hh mm ss oh om h1 h2 h3 h4 h5
    refine (matchString_iff _).mpr ⟨['2', '0', '1', '9'], ['0', '2'], ['3', '1'], hh, mm, ss, oh,
      om, '+', rfl, ?_, ?_, ?_, h1, h2, h3, Or.inl rfl, h4, h5⟩
    · simp [Digits, asciiDigit]
    · simp [Numeral, asciiDigit, decVal]
    · simp [Numeral, asciiDigit, decVal]

/-- C9 amended, at the example of the source comment and at the time `99:99:99+99:99` on the
31st of February. -/
theorem regexRFC3339Time_checks_shape_only_witness :
    (regexRFC3339Time.MatchString "2019-09-09T02:46:52+09:00" = true ∧
      CheckedShape "2019-09-09T02:46:52+09:00") ∧
    (Digits 2 ['9', '9'] ∧
      regexRFC3339Time.MatchString
        (february31 ['9', '9'] ['9', '9'] ['9', '9'] ['9', '9'] ['9', '9']) = true) :=
  have h99 : Digits 2 ['9', '9'] := by simp [Digits, asciiDigit]
  ⟨⟨by decide, regexRFC3339Time_checks_shape_only.1 "2019-09-09T02:46:52+09:00" (by decide)⟩,
    h99, regexRFC3339Time_checks_shape_only.2 _ _ _ _ _ h99 h99 h99 h99 h99⟩

/-- C7, amended: the handler never reads the Storage paths of an Item. Replacing the Storage
record of every stored Item by any other one, empty paths included, changes neither the calls
the handler makes nor its response nor what is left on disk, and the store it leaves is the
same store with the Storage records replaced. -/
theorem storage_paths_not_consulted (f : Storage → Storage) (w : World) (r : Request) :
    (handleDownloadItem (w.withStorage f) r).trace = (handleDownloadItem w r).trace ∧
    (handleDownloadItem (w.withStorage f) r).resp = (handleDownloadItem w r).resp ∧
    (handleDownloadItem (w.withStorage f) r).disk = (handleDownloadItem w r).disk ∧
    (handleDownloadItem (w.withStorage f) r).store =
      (handleDownloadItem w r).store.withStorage f := by
  rw [handleDownloadItem_withStorage]
  exact ⟨rfl, rfl, rfl, rfl⟩

/-- C2, at the failing input: for the example directory stored without a trailing separator the
listing succeeds, the first file is opened under the path `/data/abc123a.ma` and the answer is
500; with the trailing separator the archive that is served has both entries and is not
finalised. -/
theorem download_without_trailing_separator_fails :
    osReadDir exFS "/data/abc123" = .ok [⟨"a.ma", false⟩, ⟨"b.png", false⟩] ∧
    (handleDownloadItem exWorldNoSlash exRequest).resp =
      .error "open /data/abc123a.ma: no such file or directory" 500 ∧
    (handleDownloadItem exWorld exRequest).resp =
      .file 200 [("Content-Type", "application/zip"),
        ("Content-Disposition", "Attachment; filename=5f0c1a2b3c4d5e6f70818283.zip")] exZip
        ⟨[("a.ma", [1, 2, 3]), ("b.png", [4, 5])], false⟩ :=
  ⟨rfl, by decide, by decide⟩

/-- C5, at the failing input: in the successful example run the call of `ServeFile` comes
after UpdateUsingRate and before the close of the zip writer, which runs among the deferred
calls. -/
theorem archive_served_before_writer_closed :
    (handleDownloadItem exWorld exRequest).resp.status = 200 ∧
    (handleDownloadItem exWorld exRequest).trace.drop 18 =
      [⟨.UpdateUsingRate "maya" "5f0c1a2b3c4d5e6f70818283", none⟩,
       ⟨.HeaderAdd "Content-Type" "application/zip", none⟩,
       ⟨.HeaderAdd "Content-Disposition" "Attachment; filename=5f0c1a2b3c4d5e6f70818283.zip",
         none⟩,
       ⟨.ServeFile exZip, none⟩,
       ⟨.fileClose "/data/abc123/b.png", none⟩,
       ⟨.fileClose "/data/abc123/a.ma", none⟩,
       ⟨.zipWriterClose, none⟩,
       ⟨.zipFileClose exZip, none⟩,
       ⟨.RemoveAll "/tmp/zip123456", none⟩,
       ⟨.Disconnect, none⟩,
       ⟨.cancel, none⟩] := by
  decide

/-- C7, counterexample: the example Item has an empty Storage path for every platform, and its
download succeeds with status 200 after the archive file was created, the directory listed and
the entries written. -/
theorem empty_storage_path_still_downloads :
    (exItem "/data/abc123/").Storage = ⟨"", "", "", ""⟩ ∧
    GetItem none exWorld.store "maya" "5f0c1a2b3c4d5e6f70818283" = .ok (exItem "/data/abc123/") ∧
    (handleDownloadItem exWorld exRequest).resp.status = 200 ∧
    ⟨.Create exZip, none⟩ ∈ (handleDownloadItem exWorld exRequest).trace ∧
    ⟨.ReadDir "/data/abc123/", none⟩ ∈ (handleDownloadItem exWorld exRequest).trace ∧
    ⟨.Copy "a.ma", none⟩ ∈ (handleDownloadItem exWorld exRequest).trace :=
  ⟨rfl, rfl, by decide, by decide, by decide, by decide⟩

/-- C1 at a request without `itemtype`. -/
theorem missing_parameter_bad_request_witness :
    (exWorld.GetTokenFromHeader exRequestNoType = .ok "token" ∧
      Get exRequestNoType.Query "itemtype" = "") ∧
    (handleDownloadItem exWorld exRequestNoType).resp.status = 400 ∧
    (∀ ev ∈ (handleDownloadItem exWorld exRequestNoType).trace,
      ev.call.isPersistence = false ∧ ev.call.isFilesystem = false) ∧
    (handleDownloadItem exWorld exRequestNoType).store = exWorld.store :=
  ⟨⟨rfl, rfl⟩, missing_parameter_bad_request exWorld exRequestNoType "token" rfl (Or.inl rfl)⟩

/-- C10 at a requester without a valid token. -/
theorem unauthenticated_redirect_witness :
    exWorldNoToken.GetTokenFromHeader exRequest = .error "token is missing" ∧
    (handleDownloadItem exWorldNoToken exRequest).resp = .redirect "/signin" 303 ∧
    (handleDownloadItem exWorldNoToken exRequest).trace =
      [⟨.GetTokenFromHeader, some "token is missing"⟩, ⟨.Redirect "/signin" 303, none⟩] ∧
    (handleDownloadItem exWorldNoToken exRequest).store = exWorldNoToken.store :=
  ⟨rfl, unauthenticated_redirect exWorldNoToken exRequest "token is missing" rfl⟩

/-- C4 at a run in which copying `b.png` fails. -/
theorem failed_build_never_increments_witness :
    (∃ ev ∈ (handleDownloadItem exWorldCopyFails exRequest).trace,
      ev.call.isBuildStep = true ∧ ev.err ≠ none) ∧
    (handleDownloadItem exWorldCopyFails exRequest).resp.status = 500 ∧
    (∀ ev ∈ (handleDownloadItem exWorldCopyFails exRequest).trace,
      ev.call.isUpdateUsingRate = false) ∧
    (handleDownloadItem exWorldCopyFails exRequest).store = exWorldCopyFails.store :=
  ⟨⟨⟨.Copy "b.png", some "write: no space left on device"⟩, by decide, by decide, by decide⟩,
    failed_build_never_increments exWorldCopyFails exRequest
      ⟨⟨.Copy "b.png", some "write: no space left on device"⟩, by decide, by decide, by decide⟩⟩

/-- C6 at the successful example run. -/
theorem workspace_removed_witness :
    (exWorld.TempDir = .ok "/tmp/zip123456" ∧
      ⟨.TempDir, none⟩ ∈ (handleDownloadItem exWorld exRequest).trace) ∧
    ∃ pre post, (handleDownloadItem exWorld exRequest).trace =
        pre ++ ⟨.RemoveAll "/tmp/zip123456", none⟩ :: post ∧
      ∀ e ∈ post, e.call.usesWorkspace = false :=
  ⟨⟨rfl, by decide⟩, (workspace_removed exWorld exRequest).2.1 "/tmp/zip123456" rfl (by decide)⟩

end Dotori
